import Mathlib

/-!
Verification of the preheat-linux learning/prediction daemon against its
natural-language specification.  Each section embeds one part of the C
source (named after the C file and function it is taken from) and proves
or refutes the corresponding spec claim.
-/

namespace Preheat

/-! ## Readahead scheduler budget (src/predict/prophet.c, kp_prophet_readahead) -/

/-- A map as seen by the scheduler: only its `lnprob` (a C double, modelled
exactly as a rational since the loop merely compares it with 0) and its byte
`length` matter to the selection loop. -/
structure PMap where
  lnprob : ℚ
  length : ℕ
deriving DecidableEq

/-- `#define kb(v) ((int)(((v) + 1023) / 1024))` — round bytes up to kilobytes. -/
def kb (v : ℕ) : ℕ := (v + 1023) / 1024

/-- `#define clamp_percent(v) ((v)>100 ? 100 : (v) < -100 ? -100 : (v))` -/
def clamp_percent (v : ℤ) : ℤ := if v > 100 then 100 else if v < -100 then -100 else v

/-- The budget formula of `kp_prophet_readahead`:
`memavail = clamp(memtotal)*(total/100) + clamp(memfree)*(free/100);
 memavail = max(0, memavail); memavail += clamp(memcached)*(cached/100)`.
The snapshot fields are kilobyte counts (non-negative), so the C integer
divisions agree with `Nat` division. -/
def memavail_init (memtotal memfree memcached : ℤ) (total free cached : ℕ) : ℤ :=
  max 0 (clamp_percent memtotal * (total / 100 : ℕ) + clamp_percent memfree * (free / 100 : ℕ))
    + clamp_percent memcached * (cached / 100 : ℕ)

/-- The selection loop of `kp_prophet_readahead`: walk the array from the
front while `map->lnprob < 0 && kb(map->length) <= memavail`, subtracting
each selected map's rounded-up size from the budget. -/
def readahead_select : List PMap → ℤ → List PMap
  | [], _ => []
  | m :: ms, memavail =>
    if m.lnprob < 0 ∧ (kb m.length : ℤ) ≤ memavail then
      m :: readahead_select ms (memavail - kb m.length)
    else []

/-- Total rounded-up-kilobyte size of a list of maps. -/
def sumKb (ms : List PMap) : ℤ := (ms.map (fun m => (kb m.length : ℤ))).sum

theorem sumKb_nil : sumKb [] = 0 := rfl

theorem sumKb_cons (m : PMap) (ms : List PMap) :
    sumKb (m :: ms) = (kb m.length : ℤ) + sumKb ms := by
  simp [sumKb]

theorem sumKb_append (l₁ l₂ : List PMap) : sumKb (l₁ ++ l₂) = sumKb l₁ + sumKb l₂ := by
  induction l₁ with
  | nil => simp [sumKb]
  | cons m ms ih => simp [sumKb_cons, ih]; ring

theorem sumKb_nonneg (ms : List PMap) : 0 ≤ sumKb ms := by
  induction ms with
  | nil => simp [sumKb]
  | cons m ms ih =>
    rw [sumKb_cons]
    have : (0 : ℤ) ≤ (kb m.length : ℤ) := Int.natCast_nonneg _
    omega

/-- The selected maps form an initial segment of the input. -/
theorem readahead_select_front (ms : List PMap) (avail : ℤ) :
    ∃ rest, ms = readahead_select ms avail ++ rest := by
  induction ms generalizing avail with
  | nil => exact ⟨[], rfl⟩
  | cons m ms ih =>
    rw [readahead_select]
    by_cases h : m.lnprob < 0 ∧ (kb m.length : ℤ) ≤ avail
    · obtain ⟨rest, hrest⟩ := ih (avail - kb m.length)
      exact ⟨rest, by rw [if_pos h]; simpa using hrest⟩
    · exact ⟨m :: ms, by rw [if_neg h]; simp⟩

/-- Every selected map was selected while it fit: splitting the selection
anywhere, the next selected map has negative `lnprob` and its size is within
the budget that remains after the maps selected before it. -/
theorem readahead_select_each_fits (ms : List PMap) (avail : ℤ) :
    ∀ pre m post, readahead_select ms avail = pre ++ m :: post →
      m.lnprob < 0 ∧ (kb m.length : ℤ) ≤ avail - sumKb pre := by
  induction ms generalizing avail with
  | nil => intro pre m post h; simp [readahead_select] at h
  | cons m₀ ms ih =>
    intro pre m post h
    rw [readahead_select] at h
    by_cases hc : m₀.lnprob < 0 ∧ (kb m₀.length : ℤ) ≤ avail
    · rw [if_pos hc] at h
      cases pre with
      | nil =>
        simp at h
        obtain ⟨h₁, _⟩ := h
        simpa [sumKb, ← h₁] using hc
      | cons p pre' =>
        simp at h
        obtain ⟨hp, htail⟩ := h
        have := ih (avail - kb m₀.length) pre' m post htail
        rw [sumKb_cons, ← hp]
        constructor
        · exact this.1
        · omega
    · rw [if_neg hc] at h
      exact absurd h (by simp)

/-- The total selected size never exceeds a non-negative initial budget. -/
theorem readahead_select_total_le (ms : List PMap) (avail : ℤ) (h : 0 ≤ avail) :
    sumKb (readahead_select ms avail) ≤ avail := by
  induction ms generalizing avail with
  | nil => simpa [readahead_select, sumKb]
  | cons m ms ih =>
    rw [readahead_select]
    by_cases hc : m.lnprob < 0 ∧ (kb m.length : ℤ) ≤ avail
    · rw [if_pos hc, sumKb_cons]
      have hrec := ih (avail - kb m.length) (by omega)
      omega
    · rw [if_neg hc]; simpa [sumKb]

/-- The loop stops at the first map that has `lnprob ≥ 0` or does not fit in
the remaining budget. -/
theorem readahead_select_stop (ms : List PMap) (avail : ℤ) :
    ∀ m rest, ms.drop (readahead_select ms avail).length = m :: rest →
      ¬(m.lnprob < 0 ∧ (kb m.length : ℤ) ≤ avail - sumKb (readahead_select ms avail)) := by
  induction ms generalizing avail with
  | nil => intro m rest h; simp at h
  | cons m₀ ms ih =>
    intro m rest h
    rw [readahead_select] at h ⊢
    by_cases hc : m₀.lnprob < 0 ∧ (kb m₀.length : ℤ) ≤ avail
    · rw [if_pos hc] at h ⊢
      simp only [List.length_cons, List.drop_succ_cons] at h
      have := ih (avail - kb m₀.length) m rest h
      rw [sumKb_cons]
      intro hcon
      exact this ⟨hcon.1, by omega⟩
    · rw [if_neg hc] at h ⊢
      simp only [List.length_nil, List.drop_zero] at h
      cases h
      simpa [sumKb] using hc

/-! ## Region merging (src/readahead/readahead.c, kp_readahead) -/

/-- A map region as consumed by `kp_readahead`'s merge loop. -/
structure RMap where
  path : String
  offset : ℕ
  length : ℕ
deriving DecidableEq

/-- The merge condition of `kp_readahead`:
`offset <= files[i]->offset && offset + length >= files[i]->offset &&
 0 == strcmp(path, files[i]->path)`. -/
def mergeCond (cur f : RMap) : Prop :=
  cur.offset ≤ f.offset ∧ f.offset ≤ cur.offset + cur.length ∧ cur.path = f.path

instance (cur f : RMap) : Decidable (mergeCond cur f) :=
  inferInstanceAs (Decidable (cur.offset ≤ f.offset ∧ f.offset ≤ cur.offset + cur.length ∧
    cur.path = f.path))

/-- The window update on a merge:
`length = files[i]->offset + files[i]->length - offset` (no underflow: the
merge condition gives `offset ≤ files[i]->offset`). -/
def mergeExtend (cur f : RMap) : RMap :=
  { cur with length := f.offset + f.length - cur.offset }

/-- The loop body of `kp_readahead` after the first map seeded the window:
merge each following map into the current window when the condition holds,
otherwise emit the window and restart from that map. -/
def mergeLoop (cur : RMap) : List RMap → List RMap
  | [] => [cur]
  | f :: fs =>
    if mergeCond cur f then mergeLoop (mergeExtend cur f) fs
    else cur :: mergeLoop f fs

/-- The merge step of `kp_readahead` (`path` starts out NULL, so the first
map becomes the initial window; the final window is always emitted). -/
def kp_readahead_merge : List RMap → List RMap
  | [] => []
  | f :: fs => mergeLoop f fs

theorem mergeLoop_ne_nil (cur : RMap) (fs : List RMap) : mergeLoop cur fs ≠ [] := by
  induction fs generalizing cur with
  | nil => simp [mergeLoop]
  | cons f fs ih =>
    rw [mergeLoop]
    by_cases h : mergeCond cur f
    · rw [if_pos h]; exact ih _
    · rw [if_neg h]; simp

/-- The head of a merge run keeps the seed's path and offset (only the
length field is ever updated). -/
theorem mergeLoop_head (cur : RMap) (fs : List RMap) :
    ∃ w rest, mergeLoop cur fs = w :: rest ∧ w.path = cur.path ∧ w.offset = cur.offset := by
  induction fs generalizing cur with
  | nil => exact ⟨cur, [], rfl, rfl, rfl⟩
  | cons f fs ih =>
    rw [mergeLoop]
    by_cases h : mergeCond cur f
    · rw [if_pos h]
      obtain ⟨w, rest, heq, hp, ho⟩ := ih (mergeExtend cur f)
      exact ⟨w, rest, heq, hp, ho⟩
    · rw [if_neg h]
      exact ⟨cur, mergeLoop f fs, rfl, rfl, rfl⟩

/-- Adjacent emitted windows never satisfy the merge condition: a window is
emitted exactly when the map seeding the next window failed to merge, and
the merge condition only reads the next window's path and offset, which the
seed keeps. -/
theorem mergeLoop_chain (cur : RMap) (fs : List RMap) :
    List.Chain' (fun a b => ¬ mergeCond a b) (mergeLoop cur fs) := by
  induction fs generalizing cur with
  | nil => simp [mergeLoop]
  | cons f fs ih =>
    rw [mergeLoop]
    by_cases h : mergeCond cur f
    · rw [if_pos h]; exact ih _
    · rw [if_neg h]
      obtain ⟨w, rest, heq, hp, ho⟩ := mergeLoop_head f fs
      rw [heq]
      refine List.Chain'.cons ?_ (heq ▸ ih f)
      intro hcon
      exact h ⟨ho ▸ hcon.1, ho ▸ hcon.2.1, hp ▸ hcon.2.2⟩

/-- A list whose adjacent pairs all fail the merge condition passes through
the merge loop unchanged. -/
theorem mergeLoop_fixed (x : RMap) (xs : List RMap)
    (h : List.Chain' (fun a b => ¬ mergeCond a b) (x :: xs)) :
    mergeLoop x xs = x :: xs := by
  induction xs generalizing x with
  | nil => rfl
  | cons y ys ih =>
    rw [mergeLoop]
    rw [List.chain'_cons] at h
    rw [if_neg h.1, ih y h.2]

/-- Merging is idempotent on every input list. -/
theorem kp_readahead_merge_idem (xs : List RMap) :
    kp_readahead_merge (kp_readahead_merge xs) = kp_readahead_merge xs := by
  cases xs with
  | nil => rfl
  | cons f fs =>
    show kp_readahead_merge (mergeLoop f fs) = mergeLoop f fs
    obtain ⟨w, rest, heq, _, _⟩ := mergeLoop_head f fs
    have hchain := mergeLoop_chain f fs
    rw [heq] at hchain ⊢
    exact mergeLoop_fixed w rest hchain

/-- At the moment a map is merged, the updated window covers its byte
range — but the window's end becomes exactly the merged map's end, so it may
shrink below a previously covered end. -/
theorem mergeExtend_covers (cur f : RMap) (h : mergeCond cur f) :
    (mergeExtend cur f).offset ≤ f.offset ∧
      f.offset + f.length ≤ (mergeExtend cur f).offset + (mergeExtend cur f).length ∧
      (mergeExtend cur f).offset + (mergeExtend cur f).length = f.offset + f.length := by
  obtain ⟨h₁, _, _⟩ := h
  refine ⟨h₁, ?_, ?_⟩ <;> simp [mergeExtend] <;> omega

/-- The claimed superset property of the merge output: every input region is
covered by some emitted window on the same path. -/
def mergedCoversInputs (xs : List RMap) : Prop :=
  ∀ f ∈ xs, ∃ w ∈ kp_readahead_merge xs,
    w.path = f.path ∧ w.offset ≤ f.offset ∧ f.offset + f.length ≤ w.offset + w.length

instance (xs : List RMap) : Decidable (mergedCoversInputs xs) :=
  inferInstanceAs (Decidable (∀ f ∈ xs, ∃ w ∈ kp_readahead_merge xs,
    w.path = f.path ∧ w.offset ≤ f.offset ∧ f.offset + f.length ≤ w.offset + w.length))

/-- The sort order produced by `map_path_compare` (path ascending, then
offset ascending, then length descending). -/
def map_path_le (a b : RMap) : Prop :=
  a.path < b.path ∨ (a.path = b.path ∧
    (a.offset < b.offset ∨ (a.offset = b.offset ∧ b.length ≤ a.length)))

instance (a b : RMap) : Decidable (map_path_le a b) :=
  inferInstanceAs (Decidable (a.path < b.path ∨ (a.path = b.path ∧
    (a.offset < b.offset ∨ (a.offset = b.offset ∧ b.length ≤ a.length)))))

/-! ## Claim C4 -/

/-- C4: the readahead scheduler (`kp_prophet_readahead`) selects maps from
the front of the lnprob-sorted array only while `lnprob < 0` and the
rounded-up-kilobyte size fits in the remaining budget, subtracting each
selected size; it stops at the first map that does not fit or has
`lnprob ≥ 0`; no selected map exceeds the remaining budget at its moment of
selection and the total selected size never exceeds the initial budget. -/
theorem readahead_budget_invariant (memtotal memfree memcached : ℤ)
    (total free cached : ℕ) (avail : ℤ)
    (havail : avail = memavail_init memtotal memfree memcached total free cached)
    (h : 0 ≤ avail) (maps : List PMap) :
    (∃ rest, maps = readahead_select maps avail ++ rest) ∧
    (∀ pre m post, readahead_select maps avail = pre ++ m :: post →
      m.lnprob < 0 ∧ (kb m.length : ℤ) ≤ avail - sumKb pre) ∧
    (∀ m rest, maps.drop (readahead_select maps avail).length = m :: rest →
      ¬(m.lnprob < 0 ∧ (kb m.length : ℤ) ≤ avail - sumKb (readahead_select maps avail))) ∧
    sumKb (readahead_select maps avail) ≤ avail := by
  subst havail
  exact ⟨readahead_select_front maps _, readahead_select_each_fits maps _,
    readahead_select_stop maps _, readahead_select_total_le maps _ h⟩

/-- Spec scenario 6 instantiates C4: budget 350 MB (358400 kB from a free
snapshot of 358400 kB at `memfree = 100%`), maps A(100 MB, −3), B(200 MB, −2),
C(300 MB, −1), D(50 MB, +0.5): A and B are selected, 307200 kB ≤ 358400 kB. -/
theorem readahead_budget_invariant_witness :
    (0 : ℤ) ≤ memavail_init 0 100 0 1000000 358400 0 ∧
    readahead_select
        [⟨-3, 104857600⟩, ⟨-2, 209715200⟩, ⟨-1, 314572800⟩, ⟨1/2, 52428800⟩]
        (memavail_init 0 100 0 1000000 358400 0)
      = [⟨-3, 104857600⟩, ⟨-2, 209715200⟩] ∧
    sumKb (readahead_select
        [⟨-3, 104857600⟩, ⟨-2, 209715200⟩, ⟨-1, 314572800⟩, ⟨1/2, 52428800⟩]
        (memavail_init 0 100 0 1000000 358400 0))
      ≤ memavail_init 0 100 0 1000000 358400 0 := by
  refine ⟨by decide, by decide, ?_⟩
  exact (readahead_budget_invariant 0 100 0 1000000 358400 0 _ rfl (by decide) _).2.2.2

/-! ## Claim C5 -/

/-- C5 fails as stated: on the path-sorted input
`[(p,0,2000), (p,500,100)]` the second (contained) region is merged and the
window length becomes `500 + 100 − 0 = 600`, shrinking the window; the
emitted window `(p,0,600)` is not a superset of the first merged region
`(p,0,2000)`. -/
theorem merge_superset_counterexample :
    List.Chain' map_path_le [⟨"p", 0, 2000⟩, ⟨"p", 500, 100⟩] ∧
    kp_readahead_merge [⟨"p", 0, 2000⟩, ⟨"p", 500, 100⟩] = [⟨"p", 0, 600⟩] ∧
    ¬ mergedCoversInputs [⟨"p", 0, 2000⟩, ⟨"p", 500, 100⟩] := by
  refine ⟨?_, by decide, by decide⟩
  exact List.chain'_cons.mpr
    ⟨Or.inr ⟨rfl, Or.inl (by norm_num)⟩, List.chain'_singleton _⟩

/-- C5 amended: the merge step of `kp_readahead` sets the current window's
length so that the window ends exactly at the merged map's end — it covers
the map being merged at that moment, but may shrink below a previously
covered end, so an emitted window need not be a superset of every region
merged into it; running the merge step twice on the same input produces the
same output as running it once. -/
theorem merge_idem_and_covers_at_merge :
    (∀ xs : List RMap, kp_readahead_merge (kp_readahead_merge xs) = kp_readahead_merge xs) ∧
    (∀ cur f : RMap, mergeCond cur f →
      (mergeExtend cur f).offset ≤ f.offset ∧
        f.offset + f.length ≤ (mergeExtend cur f).offset + (mergeExtend cur f).length ∧
        (mergeExtend cur f).offset + (mergeExtend cur f).length = f.offset + f.length) :=
  ⟨kp_readahead_merge_idem, mergeExtend_covers⟩

/-- Witness for C5's amended statement at a concrete overlapping pair. -/
theorem merge_idem_and_covers_at_merge_witness :
    kp_readahead_merge (kp_readahead_merge [⟨"a", 0, 10⟩, ⟨"a", 5, 10⟩])
      = kp_readahead_merge [⟨"a", 0, 10⟩, ⟨"a", 5, 10⟩] ∧
    (mergeExtend ⟨"a", 0, 10⟩ ⟨"a", 5, 10⟩).offset ≤ 5 ∧
    (5 + 10 : ℕ) ≤ (mergeExtend ⟨"a", 0, 10⟩ ⟨"a", 5, 10⟩).offset
        + (mergeExtend ⟨"a", 0, 10⟩ ⟨"a", 5, 10⟩).length := by
  refine ⟨merge_idem_and_covers_at_merge.1 _, ?_, ?_⟩
  · exact (merge_idem_and_covers_at_merge.2 ⟨"a", 0, 10⟩ ⟨"a", 5, 10⟩ (by decide)).1
  · exact (merge_idem_and_covers_at_merge.2 ⟨"a", 0, 10⟩ ⟨"a", 5, 10⟩ (by decide)).2.1

/-! ## State saving (src/state/state.c, kp_state_save) -/

/-- The externally visible outcome of one `kp_state_save` call. -/
inductive SaveEvent
  /-- `open(tmpfile, O_RDWR|O_CREAT|O_TRUNC|O_NOFOLLOW, 0600)` failed. -/
  | openFail
  /-- `write_state` returned an error message. -/
  | writeFail
  /-- writing succeeded but the final `rename(tmpfile, statefile)` failed
  (a failed `fsync` is log-only and does not change control flow). -/
  | renameFail
  /-- the whole save succeeded. -/
  | success
deriving DecidableEq

structure SaveResult where
  dirty : Bool
  tmpUnlinked : Bool
  renamed : Bool
  badExesCleared : Bool
deriving DecidableEq

/-- `kp_state_save` (state.c): saves only when the state is dirty and a
statefile is configured; on a write error the temp file is unlinked; in every
case of the dirty branch `kp_state->dirty = FALSE` is executed
unconditionally before returning, and the bad-exe table is cleared on every
call. -/
def kp_state_save (dirty hasStatefile : Bool) (ev : SaveEvent) : SaveResult :=
  if dirty ∧ hasStatefile then
    match ev with
    | .openFail => { dirty := false, tmpUnlinked := false, renamed := false,
                     badExesCleared := true }
    | .writeFail => { dirty := false, tmpUnlinked := true, renamed := false,
                      badExesCleared := true }
    | .renameFail => { dirty := false, tmpUnlinked := true, renamed := false,
                       badExesCleared := true }
    | .success => { dirty := false, tmpUnlinked := false, renamed := true,
                    badExesCleared := true }
  else { dirty := dirty, tmpUnlinked := false, renamed := false, badExesCleared := true }

/-! ## Claim C3 -/

/-- C3 names a code bug: on a write error during save the temp file is
indeed unlinked, but `kp_state_save` then executes `kp_state->dirty = FALSE`
unconditionally, so the state IS marked clean and the next autosave does not
retry — contradicting the spec ("the in-memory state is not marked clean",
"dirty flag preserved so the next autosave retries"). Evaluated here: from a
dirty state with a write failure the temp file is unlinked yet the dirty
flag is false afterwards, and the flag is cleared on every outcome. -/
theorem state_save_write_error_clears_dirty :
    (kp_state_save true true SaveEvent.writeFail).tmpUnlinked = true ∧
    (kp_state_save true true SaveEvent.writeFail).dirty = false ∧
    (∀ ev : SaveEvent, (kp_state_save true true ev).dirty = false) := by
  refine ⟨rfl, rfl, ?_⟩
  intro ev; cases ev <;> rfl

/-! ## Block hints (src/readahead/readahead.c, set_block) -/

/-- Environment of one `set_block` call: outcomes of the OS calls it makes. -/
structure BlockEnv where
  openOk : Bool
  fstatOk : Bool
  /-- `buf.st_blksize` -/
  blksize : ℕ
  /-- `buf.st_ino` -/
  ino : ℤ
  /-- whether the `FIBMAP` ioctl exists at compile time (`#ifdef FIBMAP`) -/
  fibmapAvailable : Bool
  /-- `ioctl(fd, FIBMAP, &block)`: given the computed logical block, `some`
  physical block on success, `none` on failure -/
  fibmapOutcome : ℕ → Option ℤ

/-- A map as touched by `set_block`: path, offset and the block hint
(`-1` = unknown). -/
structure BMap where
  path : String
  offset : ℕ
  block : ℤ

/-- The FIBMAP branch of `set_block`:
`block = file->offset / buf.st_blksize; if (0 > ioctl(fd, FIBMAP, &block)) block = 0;`
guarded by `#ifdef FIBMAP` and `!use_inode`. -/
def fibmap_probe (file : BMap) (use_inode : Bool) (env : BlockEnv) : ℤ :=
  if env.fibmapAvailable ∧ use_inode = false then
    match env.fibmapOutcome (file.offset / env.blksize) with
    | some b => b
    | none => 0
  else 0

/-- `set_block` (readahead.c): sets `file->block = 0` first ("to not retry"),
returns early if `open` or `fstat` fails, runs the FIBMAP probe, and then —
unconditionally — executes `block = buf.st_ino; file->block = block;`,
discarding the probe's result. -/
def set_block (file : BMap) (use_inode : Bool) (env : BlockEnv) : BMap :=
  let file0 : BMap := { file with block := 0 }
  if env.openOk = false then file0
  else if env.fstatOk = false then file0
  else
    let _probed := fibmap_probe file0 use_inode env
    { file0 with block := env.ino }

/-! ## Claim C9 -/

/-- C9 names a code bug: whenever `open` and `fstat` succeed, `set_block`
stores the inode number regardless of strategy, because the fall-back
assignment `block = buf.st_ino;` is unconditional and overwrites the FIBMAP
result. Concretely: with FIBMAP available and the ioctl succeeding with
physical block 42 under strategy block (`use_inode = false`), the stored
hint is the inode 7, not 42. -/
theorem set_block_inode_overwrite_bug :
    (∀ (file : BMap) (use_inode : Bool) (blksize : ℕ) (ino : ℤ)
       (fa : Bool) (fo : ℕ → Option ℤ),
      (set_block file use_inode ⟨true, true, blksize, ino, fa, fo⟩).block = ino) ∧
    (set_block ⟨"/usr/lib/libc.so", 0, -1⟩ false
        ⟨true, true, 4096, 7, true, fun _ => some 42⟩).block = 7 ∧
    fibmap_probe ⟨"/usr/lib/libc.so", 0, 0⟩ false
        ⟨true, true, 4096, 7, true, fun _ => some 42⟩ = 42 := by
  refine ⟨?_, rfl, rfl⟩
  intro file use_inode blksize ino fa fo
  rfl

/-! ## Exe registration (src/state/state_exe.c, kp_state_register_exe) -/

/-- `pool_type_t`: 0 = observation, 1 = priority, 2 = hidden. -/
inductive Pool
  | observation
  | priority
  | hidden
deriving DecidableEq

structure ExeR where
  path : String
  pool : Pool
deriving DecidableEq

/-- The part of the global state touched by registration: the exe table (in
insertion order), the set of created markov chains (as endpoint-path pairs,
first component the pre-existing exe), and the exe sequence counter. -/
structure StateR where
  exes : List ExeR
  markovs : List (String × String)
  exeSeq : ℕ
deriving DecidableEq

/-- `shift_kp_markov_new`: invoked for every exe `a` already in the table
with the newly registered exe `b`; creates `kp_markov_new(a, b, TRUE)`
whenever `a != b` — with no check of `a`'s pool. -/
def shift_kp_markov_new (existing : List ExeR) (b : ExeR) : List (String × String) :=
  existing.filterMap (fun a => if a.path = b.path then none else some (a.path, b.path))

/-- `kp_state_register_exe` (state_exe.c): assigns the next sequence number
and, when `create_markovs` is set and the NEW exe is priority-pool, fans
`shift_kp_markov_new` out over every exe already in the table. -/
def kp_state_register_exe (st : StateR) (exe : ExeR) (create_markovs : Bool) : StateR :=
  { exes := st.exes ++ [exe],
    markovs := st.markovs ++
      (if create_markovs ∧ exe.pool = Pool.priority
       then shift_kp_markov_new st.exes exe else []),
    exeSeq := st.exeSeq + 1 }

/-- The markov set of the exe at path `p`: chains with `p` as an endpoint. -/
def markovSet (st : StateR) (p : String) : List (String × String) :=
  st.markovs.filter (fun m => m.1 = p ∨ m.2 = p)

/-! ## Claim C2 -/

/-- C2 names a code bug: when a priority-pool exe is registered,
`kp_state_register_exe` creates chains against EVERY exe already registered
— `shift_kp_markov_new` never checks the existing exe's pool (contradicting
the B012 comment "limits memory to ~(priority_count)² chains" and the
priority-only filter of `kp_markov_build_priority_mesh`). Registering
observation-pool `/usr/bin/grep` and then priority-pool `/usr/bin/firefox`
yields the chain (grep, firefox), whose first endpoint is observation-pool,
so grep's markov set is not empty. -/
theorem register_exe_markov_endpoints_bug :
    (∀ (st : StateR) (exe : ExeR),
      (kp_state_register_exe st exe true).markovs = st.markovs ++
        (if exe.pool = Pool.priority then shift_kp_markov_new st.exes exe else [])) ∧
    (kp_state_register_exe
        (kp_state_register_exe ⟨[], [], 0⟩ ⟨"/usr/bin/grep", Pool.observation⟩ true)
        ⟨"/usr/bin/firefox", Pool.priority⟩ true).markovs
      = [("/usr/bin/grep", "/usr/bin/firefox")] ∧
    markovSet (kp_state_register_exe
        (kp_state_register_exe ⟨[], [], 0⟩ ⟨"/usr/bin/grep", Pool.observation⟩ true)
        ⟨"/usr/bin/firefox", Pool.priority⟩ true) "/usr/bin/grep"
      ≠ [] := by
  refine ⟨?_, by decide, by decide⟩
  intro st exe
  simp [kp_state_register_exe]

/-! ## Markov correlation (src/state/state_markov.c, kp_markov_correlation) -/

/-- The clamping tail of `kp_markov_correlation`:
`if (correlation > 1.0) correlation = 1.0; if (correlation < -1.0) correlation = -1.0;` -/
noncomputable def clamp_correlation (c : ℝ) : ℝ :=
  if (if c > 1 then 1 else c) < -1 then -1 else (if c > 1 then 1 else c)

theorem clamp_correlation_range (c : ℝ) :
    -1 ≤ clamp_correlation c ∧ clamp_correlation c ≤ 1 := by
  unfold clamp_correlation
  by_cases h1 : c > 1
  · simp [h1]; norm_num
  · rw [if_neg h1]
    by_cases h2 : c < -1
    · rw [if_pos h2]; norm_num
    · rw [if_neg h2]
      exact ⟨le_of_not_lt h2, le_of_not_lt h1⟩

/-- `kp_markov_correlation` (state_markov.c, with the BUG-4 guard and
clamping): the marginal times are `a = markov->a->time`, `b = markov->b->time`,
the joint time `ab = markov->time`, over the window `t = kp_state->time`
(all C ints, modelled exactly as integers; the doubles as reals). -/
noncomputable def kp_markov_correlation (t a b ab : ℤ) : ℝ :=
  if a = 0 ∨ a = t ∨ b = 0 ∨ b = t then 0
  else if ((a : ℝ) * b) * (((t : ℝ) - a) * ((t : ℝ) - b)) ≤ 0 then 0
  else clamp_correlation (((t : ℝ) * ab - (a : ℝ) * b)
        / Real.sqrt (((a : ℝ) * b) * (((t : ℝ) - a) * ((t : ℝ) - b))))

/-- Shared bound: the correlation always lies in [-1, 1]. -/
theorem kp_markov_correlation_bounds (t a b ab : ℤ) :
    -1 ≤ kp_markov_correlation t a b ab ∧ kp_markov_correlation t a b ab ≤ 1 := by
  unfold kp_markov_correlation
  by_cases h1 : a = 0 ∨ a = t ∨ b = 0 ∨ b = t
  · rw [if_pos h1]; norm_num
  · rw [if_neg h1]
    by_cases h2 : ((a : ℝ) * b) * (((t : ℝ) - a) * ((t : ℝ) - b)) ≤ 0
    · rw [if_pos h2]; norm_num
    · rw [if_neg h2]; exact clamp_correlation_range _

theorem abs_kp_markov_correlation_le_one (t a b ab : ℤ) :
    |kp_markov_correlation t a b ab| ≤ 1 :=
  abs_le.mpr (kp_markov_correlation_bounds t a b ab)

/-! ## Claim C7 -/

/-- C7: `kp_markov_correlation` returns 0 whenever either marginal running
time is 0 or equal to the total state time `t`; otherwise it returns
`(t·ab − a·b)/sqrt((a·b)·(t−a)·(t−b))` clamped to [-1, 1], with a
non-positive denominator yielding 0; hence the result always lies in
[-1, 1]. -/
theorem markov_correlation_range (t a b ab : ℤ) :
    (-1 ≤ kp_markov_correlation t a b ab ∧ kp_markov_correlation t a b ab ≤ 1) ∧
    ((a = 0 ∨ a = t ∨ b = 0 ∨ b = t) → kp_markov_correlation t a b ab = 0) ∧
    (¬(a = 0 ∨ a = t ∨ b = 0 ∨ b = t) →
      ((a : ℝ) * b) * (((t : ℝ) - a) * ((t : ℝ) - b)) ≤ 0 →
      kp_markov_correlation t a b ab = 0) ∧
    (¬(a = 0 ∨ a = t ∨ b = 0 ∨ b = t) →
      ¬(((a : ℝ) * b) * (((t : ℝ) - a) * ((t : ℝ) - b)) ≤ 0) →
      kp_markov_correlation t a b ab
        = clamp_correlation (((t : ℝ) * ab - (a : ℝ) * b)
            / Real.sqrt (((a : ℝ) * b) * (((t : ℝ) - a) * ((t : ℝ) - b))))) := by
  refine ⟨kp_markov_correlation_bounds t a b ab, ?_, ?_, ?_⟩
  · intro h; unfold kp_markov_correlation; rw [if_pos h]
  · intro h1 h2; unfold kp_markov_correlation; rw [if_neg h1, if_pos h2]
  · intro h1 h2; unfold kp_markov_correlation; rw [if_neg h1, if_neg h2]

/-- Witness for C7: a zero marginal gives 0; a negative product (the
integer-overflow absorber) gives 0; the range bound holds there. -/
theorem markov_correlation_range_witness :
    kp_markov_correlation 10 0 3 2 = 0 ∧
    kp_markov_correlation 3 (-1) 1 0 = 0 ∧
    (-1 ≤ kp_markov_correlation 3 (-1) 1 0 ∧ kp_markov_correlation 3 (-1) 1 0 ≤ 1) := by
  refine ⟨(markov_correlation_range 10 0 3 2).2.1 (Or.inl rfl), ?_,
    (markov_correlation_range 3 (-1) 1 0).1⟩
  exact (markov_correlation_range 3 (-1) 1 0).2.2.1 (by norm_num) (by norm_num)

/-! ## Weighted launch counting (src/monitor/spy.c) -/

/-- `calculate_launch_weight` (spy.c): the weight for one interval.
`base = 1.0`, `duration_multiplier = log(1 + duration/divisor)`,
`user_multiplier = user_initiated ? user_mult : 1.0`, and
`short_lived_penalty = 0.3` when `duration_sec < 5` (the penalty condition
reads the SAME `duration_sec` argument the log term uses). `divisor` and
`user_mult` come from configuration (defaults 60 and 2.0). -/
noncomputable def calculate_launch_weight (duration_sec : ℤ) (user_initiated : Bool)
    (divisor : ℤ) (user_mult : ℝ) : ℝ :=
  let base : ℝ := 1
  let duration_multiplier : ℝ := Real.log (1 + (duration_sec : ℝ) / (divisor : ℝ))
  let user_multiplier : ℝ := if user_initiated then user_mult else 1
  let short_lived_penalty : ℝ := if duration_sec < 5 then 0.3 else 1
  base * duration_multiplier * user_multiplier * short_lived_penalty

/-- A tracked running-PID entry (`process_info_t`). -/
structure PidInfo where
  start_time : ℤ
  last_weight_update : ℤ
  user_initiated : Bool

/-- `update_weight_for_pid` (spy.c): `elapsed = now - last_weight_update`;
skip if no time passed; otherwise accumulate
`calculate_launch_weight(elapsed, user_initiated)` into the exe's
`weighted_launches` and stamp the entry. -/
noncomputable def update_weight_for_pid (now divisor : ℤ) (user_mult : ℝ)
    (weighted : ℝ) (p : PidInfo) : ℝ × PidInfo :=
  let elapsed := now - p.last_weight_update
  if elapsed ≤ 0 then (weighted, p)
  else (weighted + calculate_launch_weight elapsed p.user_initiated divisor user_mult,
        { p with last_weight_update := now })

/-- The increment exactly as claim C8 words it (a refinement comparison
definition, following the spec: penalty 0.3 when the PROCESS'S TOTAL
RUN-DURATION is under 5 seconds, while Δt drives the log term). -/
noncomputable def claimed_weight_increment (dt runDuration : ℤ) (user_initiated : Bool)
    (divisor : ℤ) (user_mult : ℝ) : ℝ :=
  Real.log (1 + (dt : ℝ) / (divisor : ℝ)) * (if user_initiated then user_mult else 1) *
    (if runDuration < 5 then (0.3 : ℝ) else 1)

/-! ## Claim C8 -/

/-- C8 fails as stated: with default configuration (divisor 60, multiplier
2.0), a user-initiated PID whose total run-duration is 3 s (< 5) but whose
interval since the last weight update is 10 s receives the un-penalized
increment `log(1 + 10/60)·2`, not the claimed `log(1 + 10/60)·2·0.3` — the
code keys the short-lived penalty on Δt, not on the total run-duration. -/
theorem launch_weight_penalty_counterexample :
    (update_weight_for_pid 10 60 2 0 ⟨7, 0, true⟩).1
      ≠ 0 + claimed_weight_increment (10 - 0) (10 - 7) true 60 2 := by
  simp only [update_weight_for_pid, calculate_launch_weight, claimed_weight_increment]
  norm_num

/-- C8 amended: each weight update on a currently-tracked PID with positive
`Δt = now − last_weight_update` adds exactly
`log(1 + Δt/divisor) · (user_initiated ? user_multiplier : 1) ·
 (Δt < 5 ? 0.3 : 1)` — the short-lived penalty is keyed on the elapsed
interval Δt, not on the process's total run-duration — and stamps the
entry's last-update time to `now`. -/
theorem launch_weight_increment_amended (now divisor : ℤ) (user_mult : ℝ)
    (weighted : ℝ) (p : PidInfo) (h : 0 < now - p.last_weight_update) :
    update_weight_for_pid now divisor user_mult weighted p
      = (weighted + Real.log (1 + ((now - p.last_weight_update : ℤ) : ℝ) / (divisor : ℝ))
            * (if p.user_initiated then user_mult else 1)
            * (if now - p.last_weight_update < 5 then (0.3 : ℝ) else 1),
         { p with last_weight_update := now }) := by
  unfold update_weight_for_pid calculate_launch_weight
  rw [if_neg (by omega)]
  simp only [Prod.mk.injEq]
  constructor
  · ring
  · trivial

/-- Witness for C8's amended statement: a 10-second interval on a
user-initiated PID with default configuration. -/
theorem launch_weight_increment_amended_witness :
    update_weight_for_pid 10 60 2 0 ⟨0, 0, true⟩
      = (0 + Real.log (1 + ((10 - 0 : ℤ) : ℝ) / (60 : ℝ)) * (if true then (2 : ℝ) else 1)
            * (if (10 - 0 : ℤ) < 5 then (0.3 : ℝ) else 1),
         { start_time := 0, last_weight_update := 10, user_initiated := true }) :=
  launch_weight_increment_amended 10 60 2 0 ⟨0, 0, true⟩ (by norm_num)

/-! ## Prediction pass (src/predict/prophet.c, kp_prophet_predict) -/

/-- An exe during prediction: `blacklisted` mirrors
`kp_blacklist_contains(exe->path)`, `running` mirrors `exe_is_running(exe)`,
`manual` mirrors membership of the path in the loaded manual-apps list
(`kp_conf->system.manual_apps_loaded`), `time` is `exe->time`. -/
structure ExeP where
  id : ℕ
  blacklisted : Bool
  running : Bool
  manual : Bool
  time : ℤ
  lnprob : ℝ

/-- A markov chain during prediction (4-state: 0 neither, 1 A only, 2 B only,
3 both; `weight` is the 4×4 integer transition matrix with the diagonal
counting visits, `ttl` the per-state mean sojourn times). -/
structure MarkovP where
  aId : ℕ
  bId : ℕ
  time : ℤ
  state : Fin 4
  ttl : Fin 4 → ℝ
  weight : Fin 4 → Fin 4 → ℤ

structure MapP where
  id : ℕ
  lnprob : ℝ

/-- `#define MANUAL_APP_BOOST_LNPROB -10.0` -/
def MANUAL_APP_BOOST_LNPROB : ℝ := -10

/-- `exe_zero_prob` (prophet.c): blacklisted exes reset to `lnprob = 1`,
everything else to 0. -/
def exe_zero_prob (e : ExeP) : ExeP :=
  { e with lnprob := if e.blacklisted then 1 else 0 }

/-- `map_zero_prob`. -/
def map_zero_prob (m : MapP) : MapP := { m with lnprob := 0 }

/-- `boost_manual_apps` per exe: a registered manual app that is not
currently running is forced to `lnprob = MANUAL_APP_BOOST_LNPROB`.  (The
lazy end-to-end map synthesis for manual apps without ExeMaps only adds an
entry to the exemap list; the exemap list fed to the bidding stage below is
taken after any such synthesis.) -/
def boost_manual (e : ExeP) : ExeP :=
  if e.manual ∧ e.running = false then { e with lnprob := MANUAL_APP_BOOST_LNPROB } else e

/-- Dereference `markov->a->time` / `markov->b->time`. -/
def lookupTime (exes : List ExeP) (i : ℕ) : ℤ :=
  match exes.find? (fun e => e.id = i) with
  | some e => e.time
  | none => 0

/-- `markov_bid_for_exe` (prophet.c): the amount added to endpoint `Y`'s
lnprob.  Returns 0 on the guard
`!markov->weight[state][state] || !(markov->time_to_leave[state] > 1)`;
otherwise `log(1 − |corr| · (1 − e^{−cycle·1.5/ttl[state]}) ·
(weight[state][ystate]+weight[state][3])/(weight[state][state]+0.01))`. -/
noncomputable def markov_bid_delta (cycle : ℤ) (m : MarkovP) (ystate : Fin 4)
    (corr : ℝ) : ℝ :=
  if m.weight m.state m.state = 0 ∨ ¬(m.ttl m.state > 1) then 0
  else
    let p_state_change : ℝ := 1 - Real.exp (-(cycle : ℝ) * 1.5 / m.ttl m.state)
    let p_y_runs_next : ℝ := ((m.weight m.state ystate : ℝ) + (m.weight m.state 3 : ℝ))
      / ((m.weight m.state m.state : ℝ) + 0.01)
    let p_runs : ℝ := |corr| * p_state_change * p_y_runs_next
    Real.log (1 - p_runs)

/-- Add `d` to the lnprob of the exe(s) with id `i`. -/
noncomputable def applyBid (exes : List ExeP) (i : ℕ) (d : ℝ) : List ExeP :=
  exes.map (fun e => if e.id = i then { e with lnprob := e.lnprob + d } else e)

/-- `markov_bid_in_exes` (prophet.c): skip when the current state was never
left; compute the correlation once
(`usecorrelation ? kp_markov_correlation(markov) : 1.0`); bid for endpoint A
with `ystate = 1` when state bit 1 is clear, and for endpoint B with
`ystate = 2` when state bit 2 is clear. -/
noncomputable def markov_bid_in_exes (usecorr : Bool) (cycle t : ℤ)
    (exes : List ExeP) (m : MarkovP) : List ExeP :=
  if m.weight m.state m.state = 0 then exes
  else
    let corr : ℝ := if usecorr
      then kp_markov_correlation t (lookupTime exes m.aId) (lookupTime exes m.bId) m.time
      else 1
    let exes1 := if m.state.val % 2 = 0
      then applyBid exes m.aId (markov_bid_delta cycle m 1 corr) else exes
    if m.state.val / 2 = 0
      then applyBid exes1 m.bId (markov_bid_delta cycle m 2 corr) else exes1

/-- `exemap_bid_in_maps` (prophet.c): a running owner adds `+1` to the map's
lnprob (vote against preloading), a non-running owner adds its own lnprob. -/
noncomputable def exemap_bid_in_maps (exes : List ExeP) (maps : List MapP)
    (em : ℕ × ℕ) : List MapP :=
  match exes.find? (fun e => e.id = em.1) with
  | none => maps
  | some e =>
    maps.map (fun mp => if mp.id = em.2 then
      { mp with lnprob := mp.lnprob + (if e.running then 1 else e.lnprob) } else mp)

/-- The prediction pipeline of `kp_prophet_predict` up to (and excluding)
the sort: reset exes, reset maps, boost manual apps, markov→exe bids,
exe→map bids. -/
noncomputable def kp_prophet_predict_pass (usecorr : Bool) (cycle t : ℤ)
    (exes : List ExeP) (maps : List MapP) (markovs : List MarkovP)
    (exemaps : List (ℕ × ℕ)) : List ExeP × List MapP :=
  let exes1 := exes.map exe_zero_prob
  let maps1 := maps.map map_zero_prob
  let exes2 := exes1.map boost_manual
  let exes3 := markovs.foldl (markov_bid_in_exes usecorr cycle t) exes2
  let maps2 := exemaps.foldl (exemap_bid_in_maps exes3) maps1
  (exes3, maps2)

/-- The off-diagonal mass of the current state's row of the transition
matrix. -/
def offDiagRowSum (m : MarkovP) : ℤ :=
  (∑ j : Fin 4, m.weight m.state j) - m.weight m.state m.state

/-- Well-formedness of a markov's transition matrix, as maintained by
`kp_markov_state_changed` (which increments the diagonal entry and one
strictly off-diagonal entry of the same row in lockstep, starting from an
all-zero matrix — so the off-diagonal mass of each row in fact EQUALS its
diagonal entry): all weights are non-negative and the off-diagonal mass of
the current state's row is bounded by the diagonal. -/
def MarkovWF (m : MarkovP) : Prop :=
  (∀ i j, 0 ≤ m.weight i j) ∧ offDiagRowSum m ≤ m.weight m.state m.state

/-- Owner-side counting for a map id: an exemap entry whose owner exe is
found and currently running. -/
def isRunningOwner (exes : List ExeP) (mid : ℕ) (em : ℕ × ℕ) : Bool :=
  decide (em.2 = mid) &&
    (match exes.find? (fun e => e.id = em.1) with
     | some e => e.running
     | none => false)

/-- An exemap entry whose owner exe is found, blacklisted, and not running
(it contributes its reset value 1 minus any markov bids). -/
def isBlacklistedNonRunningOwner (exes : List ExeP) (mid : ℕ) (em : ℕ × ℕ) : Bool :=
  decide (em.2 = mid) &&
    (match exes.find? (fun e => e.id = em.1) with
     | some e => e.blacklisted && !e.running
     | none => false)

/-- Per-exemap upper bound on the contribution to map `mid`. -/
noncomputable def exemapBound (exes : List ExeP) (mid : ℕ) (em : ℕ × ℕ) : ℝ :=
  if em.2 = mid then
    match exes.find? (fun e => e.id = em.1) with
    | none => 0
    | some e => if e.running then 1 else if e.blacklisted then 1 else 0
  else 0

/-- The invariant every exe satisfies throughout the bidding stages: its
lnprob never exceeds its reset value (1 for blacklisted, 0 otherwise). -/
def ExeInv (e : ExeP) : Prop := e.lnprob ≤ (if e.blacklisted then 1 else 0)

/-- Every markov→exe bid is non-positive for a well-formed weight matrix:
`p_y_runs_next < 1` because the off-diagonal mass is bounded by the diagonal
and the denominator is regularized by `+0.01`, `p_state_change ∈ [0,1)`, and
`|corr| ≤ 1`, so `p_runs ∈ [0,1)` and `log(1 − p_runs) ≤ 0`. -/
theorem markov_bid_delta_nonpos (cycle : ℤ) (m : MarkovP) (ystate : Fin 4) (corr : ℝ)
    (hcycle : 0 ≤ cycle) (hw : ∀ i j, 0 ≤ m.weight i j)
    (hrow : m.weight m.state ystate + m.weight m.state 3 ≤ m.weight m.state m.state)
    (hcorr : |corr| ≤ 1) :
    markov_bid_delta cycle m ystate corr ≤ 0 := by
  unfold markov_bid_delta
  by_cases hg : m.weight m.state m.state = 0 ∨ ¬(m.ttl m.state > 1)
  · rw [if_pos hg]
  · rw [if_neg hg]
    push_neg at hg
    obtain ⟨hw0, httl⟩ := hg
    dsimp only
    have hA1 : (1 : ℝ) ≤ (m.weight m.state m.state : ℝ) := by
      have h := hw m.state m.state
      have : (1 : ℤ) ≤ m.weight m.state m.state := by omega
      exact_mod_cast this
    have hN0 : (0 : ℝ) ≤ (m.weight m.state ystate : ℝ) + (m.weight m.state 3 : ℝ) :=
      add_nonneg (by exact_mod_cast hw m.state ystate) (by exact_mod_cast hw m.state 3)
    have hNA : (m.weight m.state ystate : ℝ) + (m.weight m.state 3 : ℝ)
        ≤ (m.weight m.state m.state : ℝ) := by exact_mod_cast hrow
    have hden : (0 : ℝ) < (m.weight m.state m.state : ℝ) + 0.01 := by linarith
    have hpy0 : 0 ≤ ((m.weight m.state ystate : ℝ) + (m.weight m.state 3 : ℝ))
        / ((m.weight m.state m.state : ℝ) + 0.01) := div_nonneg hN0 hden.le
    have hpy1 : ((m.weight m.state ystate : ℝ) + (m.weight m.state 3 : ℝ))
        / ((m.weight m.state m.state : ℝ) + 0.01) < 1 :=
      (div_lt_one hden).mpr (by linarith)
    have httl0 : (0 : ℝ) < m.ttl m.state := lt_trans one_pos httl
    have hexp_le : Real.exp (-(cycle : ℝ) * 1.5 / m.ttl m.state) ≤ 1 := by
      rw [Real.exp_le_one_iff]
      apply div_nonpos_of_nonpos_of_nonneg
      · have : (0 : ℝ) ≤ (cycle : ℝ) := by exact_mod_cast hcycle
        nlinarith
      · exact httl0.le
    have hexp_pos : 0 < Real.exp (-(cycle : ℝ) * 1.5 / m.ttl m.state) := Real.exp_pos _
    have hpc0 : 0 ≤ 1 - Real.exp (-(cycle : ℝ) * 1.5 / m.ttl m.state) := by linarith
    have hpc1 : 1 - Real.exp (-(cycle : ℝ) * 1.5 / m.ttl m.state) < 1 := by linarith
    have habs0 : 0 ≤ |corr| := abs_nonneg corr
    set pc := 1 - Real.exp (-(cycle : ℝ) * 1.5 / m.ttl m.state) with hpc
    set py := ((m.weight m.state ystate : ℝ) + (m.weight m.state 3 : ℝ))
      / ((m.weight m.state m.state : ℝ) + 0.01) with hpy
    have hp0 : 0 ≤ |corr| * pc * py := mul_nonneg (mul_nonneg habs0 hpc0) hpy0
    have h1 : |corr| * pc * py ≤ pc * py :=
      mul_le_mul_of_nonneg_right (mul_le_of_le_one_left hpc0 hcorr) hpy0
    have h2 : pc * py ≤ py := mul_le_of_le_one_left hpy0 hpc1.le
    have hp1 : |corr| * pc * py < 1 := lt_of_le_of_lt (le_trans h1 h2) hpy1
    exact Real.log_nonpos (by linarith) (by linarith)

theorem applyBid_inv (exes : List ExeP) (i : ℕ) (d : ℝ) (hd : d ≤ 0)
    (h : ∀ e ∈ exes, ExeInv e) : ∀ e' ∈ applyBid exes i d, ExeInv e' := by
  intro e' he'
  unfold applyBid at he'
  rw [List.mem_map] at he'
  obtain ⟨e, he, rfl⟩ := he'
  by_cases hid : e.id = i
  · rw [if_pos hid]
    have hinv := h e he
    unfold ExeInv at hinv ⊢
    by_cases hbl : e.blacklisted = true <;> simp only [hbl] <;>
      simp only [hbl] at hinv <;> simp at hinv ⊢ <;> linarith
  · rw [if_neg hid]; exact h e he

/-- A bid for endpoint A (`ystate = 1`) only happens when state bit 1 is
clear, i.e. in state 0 or 2; there both summed entries are strictly
off-diagonal, so the row bound of `MarkovWF` covers them. -/
theorem MarkovWF_bound_y1 (m : MarkovP) (hwf : MarkovWF m)
    (hc : m.state.val % 2 = 0) :
    m.weight m.state 1 + m.weight m.state 3 ≤ m.weight m.state m.state := by
  obtain ⟨hw, hrow⟩ := hwf
  unfold offDiagRowSum at hrow
  rw [Fin.sum_univ_four] at hrow
  have h02 : m.state = (0 : Fin 4) ∨ m.state = (2 : Fin 4) := by
    have hv : m.state.val < 4 := m.state.isLt
    have hvals : m.state.val = 0 ∨ m.state.val = 2 := by omega
    rcases hvals with h | h
    · exact Or.inl (Fin.ext h)
    · exact Or.inr (Fin.ext h)
  rcases h02 with h | h
  · rw [h] at hrow ⊢
    have h2 := hw 0 2
    linarith
  · rw [h] at hrow ⊢
    have h0 := hw 2 0
    linarith

/-- A bid for endpoint B (`ystate = 2`) only happens when state bit 2 is
clear, i.e. in state 0 or 1; again both summed entries are strictly
off-diagonal. -/
theorem MarkovWF_bound_y2 (m : MarkovP) (hwf : MarkovWF m)
    (hc : m.state.val / 2 = 0) :
    m.weight m.state 2 + m.weight m.state 3 ≤ m.weight m.state m.state := by
  obtain ⟨hw, hrow⟩ := hwf
  unfold offDiagRowSum at hrow
  rw [Fin.sum_univ_four] at hrow
  have h01 : m.state = (0 : Fin 4) ∨ m.state = (1 : Fin 4) := by
    have hv : m.state.val < 4 := m.state.isLt
    have hvals : m.state.val = 0 ∨ m.state.val = 1 := by omega
    rcases hvals with h | h
    · exact Or.inl (Fin.ext h)
    · exact Or.inr (Fin.ext h)
  rcases h01 with h | h
  · rw [h] at hrow ⊢
    have h1 := hw 0 1
    linarith
  · rw [h] at hrow ⊢
    have h0 := hw 1 0
    linarith

theorem markov_bid_in_exes_inv (usecorr : Bool) (cycle t : ℤ) (m : MarkovP)
    (hcycle : 0 ≤ cycle) (hwf : MarkovWF m)
    (exes : List ExeP) (h : ∀ e ∈ exes, ExeInv e) :
    ∀ e' ∈ markov_bid_in_exes usecorr cycle t exes m, ExeInv e' := by
  have hwpos := hwf.1
  unfold markov_bid_in_exes
  by_cases h0 : m.weight m.state m.state = 0
  · rw [if_pos h0]; exact h
  · rw [if_neg h0]
    dsimp only
    set corr : ℝ := if usecorr
      then kp_markov_correlation t (lookupTime exes m.aId) (lookupTime exes m.bId) m.time
      else 1 with hcorrdef
    have hcorr : |corr| ≤ 1 := by
      rw [hcorrdef]
      split
      · exact abs_kp_markov_correlation_le_one _ _ _ _
      · norm_num
    have h1 : ∀ e' ∈ (if m.state.val % 2 = 0
        then applyBid exes m.aId (markov_bid_delta cycle m 1 corr) else exes), ExeInv e' := by
      by_cases hc : m.state.val % 2 = 0
      · rw [if_pos hc]
        exact applyBid_inv _ _ _ (markov_bid_delta_nonpos cycle m 1 corr hcycle hwpos
          (MarkovWF_bound_y1 m hwf hc) hcorr) h
      · rw [if_neg hc]; exact h
    by_cases hc2 : m.state.val / 2 = 0
    · rw [if_pos hc2]
      exact applyBid_inv _ _ _ (markov_bid_delta_nonpos cycle m 2 corr hcycle hwpos
        (MarkovWF_bound_y2 m hwf hc2) hcorr) h1
    · rw [if_neg hc2]; exact h1

theorem markov_fold_inv (usecorr : Bool) (cycle t : ℤ) (hcycle : 0 ≤ cycle) :
    ∀ (markovs : List MarkovP), (∀ m ∈ markovs, MarkovWF m) →
    ∀ (exes : List ExeP), (∀ e ∈ exes, ExeInv e) →
    ∀ e' ∈ markovs.foldl (markov_bid_in_exes usecorr cycle t) exes, ExeInv e' := by
  intro markovs
  induction markovs with
  | nil => intro _ exes h e' he'; rw [List.foldl_nil] at he'; exact h e' he'
  | cons m ms ih =>
    intro hwf exes h e' he'
    rw [List.foldl_cons] at he'
    exact ih (fun m' hm' => hwf m' (List.mem_cons_of_mem m hm'))
      (markov_bid_in_exes usecorr cycle t exes m)
      (markov_bid_in_exes_inv usecorr cycle t m hcycle (hwf m (List.mem_cons_self m ms)) exes h)
      e' he'

theorem reset_boost_inv (exes : List ExeP) :
    ∀ e' ∈ (exes.map exe_zero_prob).map boost_manual, ExeInv e' := by
  intro e' he'
  simp only [List.mem_map] at he'
  obtain ⟨e₁, ⟨e, _, rfl⟩, rfl⟩ := he'
  unfold boost_manual exe_zero_prob ExeInv MANUAL_APP_BOOST_LNPROB
  split
  · simp only
    split <;> norm_num
  · simp only
    split <;> norm_num

theorem exemap_bid_step_bound (exes : List ExeP) (hinv : ∀ e ∈ exes, ExeInv e)
    (maps : List MapP) (em : ℕ × ℕ) :
    ∀ mp' ∈ exemap_bid_in_maps exes maps em,
      ∃ mp ∈ maps, mp'.id = mp.id ∧
        mp'.lnprob ≤ mp.lnprob + exemapBound exes mp.id em := by
  intro mp' hmp'
  unfold exemap_bid_in_maps at hmp'
  cases hfind : exes.find? (fun e => e.id = em.1) with
  | none =>
    rw [hfind] at hmp'
    refine ⟨mp', hmp', rfl, ?_⟩
    have hzero : exemapBound exes mp'.id em = 0 := by
      unfold exemapBound; rw [hfind]; split <;> rfl
    rw [hzero]; simp
  | some e =>
    rw [hfind] at hmp'
    rw [List.mem_map] at hmp'
    obtain ⟨mp, hmp, rfl⟩ := hmp'
    by_cases hid : mp.id = em.2
    · rw [if_pos hid]
      refine ⟨mp, hmp, rfl, ?_⟩
      have hbound : exemapBound exes mp.id em
          = if e.running then 1 else if e.blacklisted then 1 else 0 := by
        unfold exemapBound
        rw [if_pos hid.symm, hfind]
      rw [hbound]
      by_cases hrun : e.running
      · simp [hrun]
      · have he : ExeInv e := hinv e (List.mem_of_find?_eq_some hfind)
        unfold ExeInv at he
        by_cases hbl : e.blacklisted <;> simp [hrun, hbl] at he ⊢ <;> linarith
    · rw [if_neg hid]
      refine ⟨mp, hmp, rfl, ?_⟩
      have hzero : exemapBound exes mp.id em = 0 := by
        unfold exemapBound
        rw [if_neg (fun hh => hid hh.symm)]
      rw [hzero]; simp

theorem exemap_fold_bound (exes : List ExeP) (hinv : ∀ e ∈ exes, ExeInv e) :
    ∀ (ems : List (ℕ × ℕ)) (maps : List MapP),
      ∀ mp' ∈ ems.foldl (exemap_bid_in_maps exes) maps,
        ∃ mp ∈ maps, mp'.id = mp.id ∧
          mp'.lnprob ≤ mp.lnprob + (ems.map (exemapBound exes mp.id)).sum := by
  intro ems
  induction ems with
  | nil =>
    intro maps mp' h
    rw [List.foldl_nil] at h
    exact ⟨mp', h, rfl, by simp⟩
  | cons em ems ih =>
    intro maps mp' h
    rw [List.foldl_cons] at h
    obtain ⟨mp₁, hmp₁, hid₁, hle₁⟩ := ih (exemap_bid_in_maps exes maps em) mp' h
    obtain ⟨mp, hmp, hid₂, hle₂⟩ := exemap_bid_step_bound exes hinv maps em mp₁ hmp₁
    refine ⟨mp, hmp, hid₁.trans hid₂, ?_⟩
    rw [List.map_cons, List.sum_cons]
    rw [hid₂] at hle₁
    linarith

theorem sum_exemapBound_eq_counts (exes : List ExeP) (mid : ℕ) :
    ∀ ems : List (ℕ × ℕ),
      (ems.map (exemapBound exes mid)).sum
        = (ems.countP (isRunningOwner exes mid) : ℝ)
          + (ems.countP (isBlacklistedNonRunningOwner exes mid) : ℝ) := by
  intro ems
  induction ems with
  | nil => simp
  | cons em ems ih =>
    rw [List.map_cons, List.sum_cons, List.countP_cons, List.countP_cons, ih]
    push_cast
    have hsplit : exemapBound exes mid em
        = (if isRunningOwner exes mid em = true then (1 : ℝ) else 0)
          + (if isBlacklistedNonRunningOwner exes mid em = true then (1 : ℝ) else 0) := by
      unfold exemapBound isRunningOwner isBlacklistedNonRunningOwner
      by_cases h2 : em.2 = mid
      · cases hfind : exes.find? (fun e => e.id = em.1) with
        | none => simp [h2, hfind]
        | some e =>
          by_cases hrun : e.running
          · simp [h2, hfind, hrun]
          · by_cases hbl : e.blacklisted <;> simp [h2, hfind, hrun, hbl]
      · simp [h2]
    rw [hsplit]; ring

/-! ## Claim C6 -/

/-- C6 fails as stated: a single blacklisted, non-running, non-manual exe
owning one ExeMap (no markovs, no manual apps) leaves the map with
`lnprob = 1` after a full pass — the blacklist reset value `exe->lnprob = 1`
is a POSITIVE contribution from a non-running owner — while the number of
currently-running owners is `k = 0`, so `lnprob ≤ k` fails. -/
theorem map_lnprob_bound_counterexample :
    (kp_prophet_predict_pass true 20 100
        [⟨0, true, false, false, 0, 0⟩] [⟨0, 0⟩] [] [(0, 0)]).2
      = [⟨0, 1⟩] ∧
    [((0 : ℕ), (0 : ℕ))].countP (isRunningOwner
        (kp_prophet_predict_pass true 20 100
          [⟨0, true, false, false, 0, 0⟩] [⟨0, 0⟩] [] [(0, 0)]).1 0) = 0 ∧
    ¬ ((1 : ℝ) ≤ ((0 : ℕ) : ℝ)) := by
  refine ⟨?_, ?_, by norm_num⟩
  · simp [kp_prophet_predict_pass, exe_zero_prob, map_zero_prob, boost_manual,
      exemap_bid_in_maps, List.find?]
  · simp [kp_prophet_predict_pass, exe_zero_prob, boost_manual, isRunningOwner,
      List.find?]

/-- C6 amended: after one full prediction pass (reset, manual boost, markov
bids, exe-to-map bids) and before the sort, every map's accumulated lnprob
is at most `r + b`, where `r` is the number of its ExeMap entries whose
owner exe is currently running (each contributes exactly +1) and `b` is the
number whose owner is blacklisted and not running (reset to `lnprob = 1`,
only lowered by markov bids); every other contribution is non-positive.
Hypotheses: the configured cycle is non-negative and every markov's weight
matrix has the shape `kp_markov_state_changed` maintains (non-negative
entries, the strictly-off-diagonal mass of the current state's row bounded
by its diagonal entry — the lockstep increments in fact keep them equal). -/
theorem map_lnprob_bound_amended (usecorr : Bool) (cycle t : ℤ)
    (exes : List ExeP) (maps : List MapP) (markovs : List MarkovP)
    (exemaps : List (ℕ × ℕ))
    (hcycle : 0 ≤ cycle) (hwf : ∀ m ∈ markovs, MarkovWF m) :
    ∀ mp ∈ (kp_prophet_predict_pass usecorr cycle t exes maps markovs exemaps).2,
      mp.lnprob ≤
        (exemaps.countP (isRunningOwner
            (kp_prophet_predict_pass usecorr cycle t exes maps markovs exemaps).1 mp.id) : ℝ)
          + (exemaps.countP (isBlacklistedNonRunningOwner
            (kp_prophet_predict_pass usecorr cycle t exes maps markovs exemaps).1 mp.id) : ℝ) := by
  intro mp hmp
  have hinv : ∀ e ∈ markovs.foldl (markov_bid_in_exes usecorr cycle t)
      ((exes.map exe_zero_prob).map boost_manual), ExeInv e :=
    markov_fold_inv usecorr cycle t hcycle markovs hwf _ (reset_boost_inv exes)
  unfold kp_prophet_predict_pass at hmp ⊢
  dsimp only at hmp ⊢
  obtain ⟨mp₀, hmp₀, hid, hle⟩ :=
    exemap_fold_bound _ hinv exemaps (maps.map map_zero_prob) mp hmp
  rw [List.mem_map] at hmp₀
  obtain ⟨mq, _, rfl⟩ := hmp₀
  rw [sum_exemapBound_eq_counts] at hle
  rw [hid]
  simpa [map_zero_prob] using hle

/-- Witness for C6's amended bound: one running, non-blacklisted owner
contributes exactly +1 and the bound `r + b = 1 + 0` holds; the state also
holds one markov (never yet left its state: all-zero weights, which satisfy
`MarkovWF` and make `markov_bid_in_exes` skip it). -/
theorem map_lnprob_bound_amended_witness :
    (MapP.mk 0 1).lnprob ≤
      ([((0 : ℕ), (0 : ℕ))].countP (isRunningOwner
          (kp_prophet_predict_pass true 20 100
            [⟨0, false, true, false, 0, 0⟩] [⟨0, 0⟩]
            [⟨0, 1, 0, 0, fun _ => 0, fun _ _ => 0⟩] [(0, 0)]).1 (MapP.mk 0 1).id) : ℝ)
        + ([((0 : ℕ), (0 : ℕ))].countP (isBlacklistedNonRunningOwner
          (kp_prophet_predict_pass true 20 100
            [⟨0, false, true, false, 0, 0⟩] [⟨0, 0⟩]
            [⟨0, 1, 0, 0, fun _ => 0, fun _ _ => 0⟩] [(0, 0)]).1 (MapP.mk 0 1).id) : ℝ) := by
  refine map_lnprob_bound_amended true 20 100
    [⟨0, false, true, false, 0, 0⟩] [⟨0, 0⟩]
    [⟨0, 1, 0, 0, fun _ => 0, fun _ _ => 0⟩] [(0, 0)] (by norm_num)
    (fun m hm => ?_) (MapP.mk 0 1) ?_
  · simp only [List.mem_singleton] at hm
    subst hm
    exact ⟨fun i j => le_refl 0, by simp [offDiagRowSum]⟩
  · simp [kp_prophet_predict_pass, exe_zero_prob, map_zero_prob, boost_manual,
      exemap_bid_in_maps, markov_bid_in_exes, List.find?]

/-! ## State-file loading (src/state/state_io.c, kp_state_read_from_channel)

The reader is modelled one line at a time over already-tokenized records: a
well-formed `MAP`/`EXE`/… line carries its parsed fields (`path` is the
result of `g_filename_from_uri`), a line whose record fields fail `sscanf`
is `badRecordLine` with its tag (an `EXE` line that fits none of the 9-, 6-
or 5-field forms; a legacy 6- or 5-field line is an `exeLine` with the
migrated defaults pool = observation, weighted = 0, raw = 0, duration = 0),
a line
with an unrecognized first token is `unknownTagLine`, and `#`- or
whitespace-prefixed lines are `commentLine`. -/

def READ_TAG_ERROR : String := "invalid tag"
def READ_SYNTAX_ERROR : String := "invalid syntax"
def READ_INDEX_ERROR : String := "invalid index"
def READ_DUPLICATE_INDEX_ERROR : String := "duplicate index"
def READ_DUPLICATE_OBJECT_ERROR : String := "duplicate object"
def READ_PID_ORPHAN_ERROR : String := "PID without parent EXE"

structure MapRec where
  seq : ℤ
  updateTime : ℤ
  offset : ℕ
  length : ℕ
  path : String
deriving DecidableEq

structure ExeRec where
  seq : ℤ
  updateTime : ℤ
  time : ℤ
  pool : ℕ
  weighted : ℚ
  raw : ℕ
  duration : ℕ
  path : String
deriving DecidableEq

/-- The recognized first tokens of a state-file line. -/
inductive STag
  | preload | map | badexe | exe | pids | pid | exemap | markov | family
  | preloadTimes | crc
deriving DecidableEq

inductive SLine
  | preloadHeader (majorVer : ℕ) (time : ℤ)
  | mapLine (m : MapRec)
  | badexeLine
  | exeLine (e : ExeRec)
  | pidsLine (count : ℤ)
  | pidLine (pid start lastUpdate : ℤ) (userInit : Bool)
  | exemapLine (iexe imap : ℤ) (prob : ℚ)
  | markovLine (ia ib : ℤ) (time : ℤ) (ttl : List ℚ) (w : List ℤ)
  | familyLine (famId : String) (method : ℤ) (members : List String)
  | preloadTimesLine
  | crcLine (value : Option ℕ)
  | commentLine
  | unknownTagLine
  | badRecordLine (tag : STag)
deriving DecidableEq

/-- Whether the line's first token is `PRELOAD` (the header check on line 1
compares only the tag). -/
def SLine.tagIsPreload : SLine → Bool
  | .preloadHeader _ _ => true
  | .badRecordLine STag.preload => true
  | _ => false

structure PidEntry where
  pid : ℤ
  start : ℤ
  lastUpdate : ℤ
  userInit : Bool
  exePath : String
deriving DecidableEq

structure MarkovEntry where
  aSeq : ℤ
  bSeq : ℤ
  time : ℤ
  ttl : List ℚ
  w : List ℤ
deriving DecidableEq

/-- The reader context: `idxMaps`/`idxExes` are `rc.maps`/`rc.exes` (the
sequence-number indexes local to one load), `stMaps`/`stExes` the global
`kp_state` tables being populated (maps value-keyed on (path,offset,length),
exes keyed on path), plus the other collections records land in.
`currentExe` backs the `PIDS`/`PID` subsections. -/
structure ReadCtx where
  idxMaps : List (ℤ × MapRec)
  idxExes : List (ℤ × ExeRec)
  stMaps : List MapRec
  stExes : List ExeRec
  stExemaps : List (ℤ × ℤ × ℚ)
  stMarkovs : List MarkovEntry
  stFamilies : List (String × ℤ × List String)
  stPids : List PidEntry
  currentExe : Option ExeRec
  expectedPids : ℤ
  stateTime : ℤ
deriving DecidableEq

def initCtx : ReadCtx := ⟨[], [], [], [], [], [], [], [], none, 0, 0⟩

/-- External facts a load consults: the daemon's own major version
(`strtod(VERSION)`), and the `/proc` checks of `read_pid`. -/
structure LoadEnv where
  majorVerRun : ℕ
  pidAlive : ℤ → Bool
  pidMatchesExe : ℤ → String → Bool

def lookupIdx {α : Type} (l : List (ℤ × α)) (k : ℤ) : Option α :=
  match l.find? (fun p => p.1 = k) with
  | some p => some p.2
  | none => none

/-- `read_map`: after parsing, a sequence number already present in
`rc->maps` is a duplicate-index error; a map with the same
(path, offset, length) already in the global table is a duplicate-object
error; otherwise `kp_map_ref` registers the map and the index is extended. -/
def read_map (rc : ReadCtx) (m : MapRec) : Except String ReadCtx :=
  if (lookupIdx rc.idxMaps m.seq).isSome then Except.error READ_DUPLICATE_INDEX_ERROR
  else if rc.stMaps.any (fun m' =>
      decide (m'.path = m.path ∧ m'.offset = m.offset ∧ m'.length = m.length)) then
    Except.error READ_DUPLICATE_OBJECT_ERROR
  else Except.ok { rc with idxMaps := rc.idxMaps ++ [(m.seq, m)],
                           stMaps := rc.stMaps ++ [m] }

/-- `read_exe`: duplicate sequence number in `rc->exes` is a duplicate-index
error; an exe whose path is already in `kp_state->exes` is a
duplicate-object error; otherwise the exe is registered
(`kp_state_register_exe(exe, FALSE)`) and becomes `current_exe`. -/
def read_exe (rc : ReadCtx) (e : ExeRec) : Except String ReadCtx :=
  if (lookupIdx rc.idxExes e.seq).isSome then Except.error READ_DUPLICATE_INDEX_ERROR
  else if rc.stExes.any (fun e' => decide (e'.path = e.path)) then
    Except.error READ_DUPLICATE_OBJECT_ERROR
  else Except.ok { rc with idxExes := rc.idxExes ++ [(e.seq, e)],
                           stExes := rc.stExes ++ [e], currentExe := some e }

/-- `read_exemap`: both referenced sequence numbers must resolve. -/
def read_exemap (rc : ReadCtx) (iexe imap : ℤ) (prob : ℚ) : Except String ReadCtx :=
  match lookupIdx rc.idxExes iexe, lookupIdx rc.idxMaps imap with
  | some _, some _ => Except.ok { rc with stExemaps := rc.stExemaps ++ [(iexe, imap, prob)] }
  | _, _ => Except.error READ_INDEX_ERROR

/-- `read_markov`: the two endpoint sequence numbers must resolve (checked
after the 3-field header parse), then exactly 4 time-to-leave values and 16
weights must parse. -/
def read_markov (rc : ReadCtx) (ia ib mtime : ℤ) (ttl : List ℚ) (w : List ℤ) :
    Except String ReadCtx :=
  match lookupIdx rc.idxExes ia, lookupIdx rc.idxExes ib with
  | some _, some _ =>
    if ttl.length = 4 ∧ w.length = 16 then
      Except.ok { rc with stMarkovs := rc.stMarkovs ++ [⟨ia, ib, mtime, ttl, w⟩] }
    else Except.error READ_SYNTAX_ERROR
  | _, _ => Except.error READ_INDEX_ERROR

/-- `read_family`: an empty family id is a syntax error; a duplicate id is
skipped with a debug message (members are the non-empty, space-trimmed
semicolon tokens). -/
def read_family (rc : ReadCtx) (famId : String) (method : ℤ) (members : List String) :
    Except String ReadCtx :=
  if famId = "" then Except.error READ_SYNTAX_ERROR
  else if rc.stFamilies.any (fun f => decide (f.1 = famId)) then Except.ok rc
  else Except.ok { rc with stFamilies := rc.stFamilies ++ [(famId, method, members)] }

/-- `read_pid`: requires a preceding `EXE`; a dead PID, or a PID whose
`/proc/PID/exe` no longer canonicalizes to the parent exe's path, is
silently dropped (PID reuse). -/
def read_pid (env : LoadEnv) (rc : ReadCtx) (pid start lastUpdate : ℤ) (ui : Bool) :
    Except String ReadCtx :=
  match rc.currentExe with
  | none => Except.error READ_PID_ORPHAN_ERROR
  | some e =>
    if env.pidAlive pid = false then Except.ok rc
    else if env.pidMatchesExe pid e.path = false then Except.ok rc
    else Except.ok { rc with stPids := rc.stPids ++ [⟨pid, start, lastUpdate, ui, e.path⟩] }

/-- `read_crc32` (state_io.c:417-426): the stored hex value is parsed into a
local variable and the function returns; a malformed value merely logs at
debug level.  The value is never compared with a recomputed CRC of the
preceding bytes — `READ_CRC_ERROR` is defined in the source but never
used. -/
def read_crc32 (rc : ReadCtx) (value : Option ℕ) : Except String ReadCtx :=
  match value with
  | some _ => Except.ok rc
  | none => Except.ok rc

structure Machine where
  lineno : ℕ
  rc : ReadCtx
deriving DecidableEq

inductive RunOut
  /-- still reading -/
  | run (m : Machine)
  /-- a `break` with no error set (bad header, version mismatch): the state
  read so far is kept and NO quarantine happens -/
  | halted (m : Machine)
  /-- `rc.errmsg` set: reading stops, the caller quarantines -/
  | failed (lineno : ℕ) (msg : String)
deriving DecidableEq

def liftE (n : ℕ) (res : Except String ReadCtx) : RunOut :=
  match res with
  | Except.ok rc => RunOut.run ⟨n, rc⟩
  | Except.error msg => RunOut.failed n msg

/-- One iteration of the read loop of `kp_state_read_from_channel`: bump the
line number, stop with a warning if line 1 is not a `PRELOAD` header, then
dispatch on the tag.  A mid-file `PRELOAD` line always re-enters the header
branch (the `TAG_PRELOAD_TIME` arm is dead code since both share the tag)
and fails its `lineno != 1` check. -/
def stepLine (env : LoadEnv) (mach : Machine) (l : SLine) : RunOut :=
  let n := mach.lineno + 1
  let rc := mach.rc
  if n = 1 ∧ SLine.tagIsPreload l = false then RunOut.halted ⟨n, rc⟩
  else
    match l with
    | .preloadHeader majorVer time =>
      if n ≠ 1 then RunOut.failed n READ_SYNTAX_ERROR
      else if env.majorVerRun < majorVer then RunOut.halted ⟨n, rc⟩
      else if env.majorVerRun > majorVer then RunOut.halted ⟨n, rc⟩
      else RunOut.run ⟨n, { rc with stateTime := time }⟩
    | .mapLine m => liftE n (read_map rc m)
    | .badexeLine => RunOut.run ⟨n, rc⟩
    | .exeLine e => liftE n (read_exe { rc with currentExe := none } e)
    | .pidsLine count => RunOut.run ⟨n, { rc with expectedPids := count }⟩
    | .pidLine pid start lastUpdate ui => liftE n (read_pid env rc pid start lastUpdate ui)
    | .exemapLine iexe imap prob => liftE n (read_exemap rc iexe imap prob)
    | .markovLine ia ib mtime ttl w => liftE n (read_markov rc ia ib mtime ttl w)
    | .familyLine famId method members => liftE n (read_family rc famId method members)
    | .preloadTimesLine => RunOut.run ⟨n, rc⟩
    | .crcLine value => liftE n (read_crc32 rc value)
    | .commentLine => RunOut.run ⟨n, rc⟩
    | .unknownTagLine => RunOut.failed n READ_TAG_ERROR
    | .badRecordLine tag =>
      match tag with
      | STag.badexe => RunOut.run ⟨n, rc⟩
      | STag.preloadTimes => RunOut.run ⟨n, rc⟩
      | STag.crc => RunOut.run ⟨n, rc⟩
      | _ => RunOut.failed n READ_SYNTAX_ERROR

def runLines (env : LoadEnv) : RunOut → List SLine → RunOut
  | s, [] => s
  | RunOut.run mach, l :: ls => runLines env (stepLine env mach l) ls
  | RunOut.halted mach, _ :: _ => RunOut.halted mach
  | RunOut.failed n msg, _ :: _ => RunOut.failed n msg

inductive LoadOutcome
  /-- no `errmsg`: the parsed state is kept (the post-parse fixups — marking
  running processes from `/proc` and recomputing markov states — touch
  fields outside this model) -/
  | loaded (rc : ReadCtx)
  /-- `errmsg = "line %d: %s"`: the caller renames the file to
  `<statefile>.broken.<yyyymmdd_HHMMSS>` (`kp_state_handle_corrupt_file`)
  and continues with the empty state -/
  | quarantined (lineno : ℕ) (msg : String)
deriving DecidableEq

/-- Loading a state file: run the reader from an empty context and
quarantine exactly when it fails. -/
def kp_state_load_model (env : LoadEnv) (file : List SLine) : LoadOutcome :=
  match runLines env (RunOut.run ⟨0, initCtx⟩) file with
  | RunOut.run mach => LoadOutcome.loaded mach.rc
  | RunOut.halted mach => LoadOutcome.loaded mach.rc
  | RunOut.failed n msg => LoadOutcome.quarantined n msg

def LoadOutcome.isLoaded : LoadOutcome → Bool
  | .loaded _ => true
  | .quarantined _ _ => false

theorem runLines_nil (env : LoadEnv) (s : RunOut) : runLines env s [] = s := by
  cases s <;> rfl

theorem runLines_run_cons (env : LoadEnv) (mach : Machine) (l : SLine) (ls : List SLine) :
    runLines env (RunOut.run mach) (l :: ls) = runLines env (stepLine env mach l) ls := rfl

theorem runLines_failed (env : LoadEnv) (n : ℕ) (msg : String) (ls : List SLine) :
    runLines env (RunOut.failed n msg) ls = RunOut.failed n msg := by
  cases ls <;> rfl

theorem runLines_append (env : LoadEnv) (l₁ l₂ : List SLine) :
    ∀ s : RunOut, runLines env s (l₁ ++ l₂) = runLines env (runLines env s l₁) l₂ := by
  induction l₁ with
  | nil => intro s; rw [List.nil_append, runLines_nil]
  | cons l ls ih =>
    intro s
    cases s with
    | run mach => rw [List.cons_append, runLines_run_cons, runLines_run_cons, ih]
    | halted mach => cases l₂ <;> rfl
    | failed n msg => cases l₂ <;> rfl

theorem read_crc32_ok (rc : ReadCtx) (v : Option ℕ) : read_crc32 rc v = Except.ok rc := by
  cases v <;> rfl

theorem stepLine_crc_value_irrelevant (env : LoadEnv) (mach : Machine) (v₁ v₂ : Option ℕ) :
    stepLine env mach (SLine.crcLine v₁) = stepLine env mach (SLine.crcLine v₂) := by
  simp only [stepLine, SLine.tagIsPreload, read_crc32_ok]

theorem load_model_crc_indep (env : LoadEnv) (body : List SLine) (v₁ v₂ : Option ℕ) :
    kp_state_load_model env (body ++ [SLine.crcLine v₁])
      = kp_state_load_model env (body ++ [SLine.crcLine v₂]) := by
  unfold kp_state_load_model
  rw [runLines_append, runLines_append]
  cases runLines env (RunOut.run ⟨0, initCtx⟩) body with
  | run mach =>
    rw [runLines_run_cons, runLines_run_cons, runLines_nil, runLines_nil,
      stepLine_crc_value_irrelevant env mach v₁ v₂]
  | halted mach => rfl
  | failed n msg => rfl

/-! ## Claim C1 -/

/-- C1 names a code bug: the loader never verifies the CRC footer.
`read_crc32` parses the stored hex value into a local and returns without
comparing it against anything (the module header advertises
"read_crc32() - Integrity verification" and the `READ_CRC_ERROR` constant
exists in the source, unused), so: (i) `read_crc32` always succeeds and
leaves the context unchanged; (ii) the load verdict of any file is
independent of the footer value — since at most one footer value can equal
the CRC-32 of the preceding bytes, every mismatching footer is accepted
exactly like the matching one, with no quarantine; (iii) concretely, a
daemon-style file loads, and the same file with one numeric field of its
`EXE` record changed (a flipped byte before the CRC line) and the original
footer still loads — no parse error, no `.broken.<timestamp>` rename. -/
theorem crc_footer_ignored_on_load :
    (∀ (rc : ReadCtx) (v : Option ℕ), read_crc32 rc v = Except.ok rc) ∧
    (∀ (env : LoadEnv) (body : List SLine) (v₁ v₂ : Option ℕ),
      kp_state_load_model env (body ++ [SLine.crcLine v₁])
        = kp_state_load_model env (body ++ [SLine.crcLine v₂])) ∧
    (kp_state_load_model ⟨1, fun _ => false, fun _ _ => false⟩
        [SLine.preloadHeader 1 500,
         SLine.mapLine ⟨1, 400, 0, 4096, "/usr/lib/libc.so"⟩,
         SLine.exeLine ⟨1, 450, 300, 1, 5/2, 3, 120, "/usr/bin/firefox"⟩,
         SLine.exemapLine 1 1 1,
         SLine.crcLine (some 0xDEADBEEF)]).isLoaded = true ∧
    (kp_state_load_model ⟨1, fun _ => false, fun _ _ => false⟩
        [SLine.preloadHeader 1 500,
         SLine.mapLine ⟨1, 400, 0, 4096, "/usr/lib/libc.so"⟩,
         SLine.exeLine ⟨1, 450, 301, 1, 5/2, 3, 120, "/usr/bin/firefox"⟩,
         SLine.exemapLine 1 1 1,
         SLine.crcLine (some 0xDEADBEEF)]).isLoaded = true :=
  ⟨read_crc32_ok, load_model_crc_indep, rfl, rfl⟩

/-! ## Claim C10 -/

/-- C10: beyond the spec's listed fatal conditions (unknown tag, CRC
mismatch, sscanf failure), duplicate records are fatal too: a `MAP` line
whose sequence number is already indexed fails with the duplicate-index
error, a `MAP` line denoting a (path, offset, length) already in the global
table fails with the duplicate-object error, and likewise for an `EXE` line
by sequence number or by path; any such failure makes the load quarantine
the file with that error. -/
theorem load_duplicate_records_fail :
    (∀ (env : LoadEnv) (mach : Machine) (m : MapRec),
      mach.lineno ≠ 0 → (lookupIdx mach.rc.idxMaps m.seq).isSome = true →
      stepLine env mach (SLine.mapLine m)
        = RunOut.failed (mach.lineno + 1) READ_DUPLICATE_INDEX_ERROR) ∧
    (∀ (env : LoadEnv) (mach : Machine) (m : MapRec),
      mach.lineno ≠ 0 → (lookupIdx mach.rc.idxMaps m.seq).isSome = false →
      mach.rc.stMaps.any (fun m' =>
        decide (m'.path = m.path ∧ m'.offset = m.offset ∧ m'.length = m.length)) = true →
      stepLine env mach (SLine.mapLine m)
        = RunOut.failed (mach.lineno + 1) READ_DUPLICATE_OBJECT_ERROR) ∧
    (∀ (env : LoadEnv) (mach : Machine) (e : ExeRec),
      mach.lineno ≠ 0 → (lookupIdx mach.rc.idxExes e.seq).isSome = true →
      stepLine env mach (SLine.exeLine e)
        = RunOut.failed (mach.lineno + 1) READ_DUPLICATE_INDEX_ERROR) ∧
    (∀ (env : LoadEnv) (mach : Machine) (e : ExeRec),
      mach.lineno ≠ 0 → (lookupIdx mach.rc.idxExes e.seq).isSome = false →
      mach.rc.stExes.any (fun e' => decide (e'.path = e.path)) = true →
      stepLine env mach (SLine.exeLine e)
        = RunOut.failed (mach.lineno + 1) READ_DUPLICATE_OBJECT_ERROR) ∧
    (∀ (env : LoadEnv) (pre : List SLine) (mach : Machine) (l : SLine)
       (suf : List SLine) (n : ℕ) (msg : String),
      runLines env (RunOut.run ⟨0, initCtx⟩) pre = RunOut.run mach →
      stepLine env mach l = RunOut.failed n msg →
      kp_state_load_model env (pre ++ l :: suf) = LoadOutcome.quarantined n msg) := by
  refine ⟨?_, ?_, ?_, ?_, ?_⟩
  · intro env mach m hn hdup
    simp only [stepLine, SLine.tagIsPreload]
    rw [if_neg (fun h => hn (by omega))]
    unfold read_map
    rw [if_pos hdup]
    rfl
  · intro env mach m hn hfresh hobj
    simp only [stepLine, SLine.tagIsPreload]
    rw [if_neg (fun h => hn (by omega))]
    unfold read_map
    rw [if_neg (by rw [hfresh]; exact Bool.false_ne_true), if_pos hobj]
    rfl
  · intro env mach e hn hdup
    simp only [stepLine, SLine.tagIsPreload]
    rw [if_neg (fun h => hn (by omega))]
    unfold read_exe
    rw [if_pos hdup]
    rfl
  · intro env mach e hn hfresh hobj
    simp only [stepLine, SLine.tagIsPreload]
    rw [if_neg (fun h => hn (by omega))]
    unfold read_exe
    rw [if_neg (by rw [hfresh]; exact Bool.false_ne_true), if_pos hobj]
    rfl
  · intro env pre mach l suf n msg hpre hstep
    unfold kp_state_load_model
    rw [runLines_append, hpre, runLines_run_cons, hstep, runLines_failed]

/-- Witness for C10: four concrete three-line files, each quarantined at
line 3 with the corresponding duplicate error. -/
theorem load_duplicate_records_fail_witness :
    kp_state_load_model ⟨1, fun _ => false, fun _ _ => false⟩
        [SLine.preloadHeader 1 500,
         SLine.mapLine ⟨1, 400, 0, 4096, "/usr/lib/libc.so"⟩,
         SLine.mapLine ⟨1, 401, 0, 8192, "/usr/lib/libm.so"⟩]
      = LoadOutcome.quarantined 3 READ_DUPLICATE_INDEX_ERROR ∧
    kp_state_load_model ⟨1, fun _ => false, fun _ _ => false⟩
        [SLine.preloadHeader 1 500,
         SLine.mapLine ⟨1, 400, 0, 4096, "/usr/lib/libc.so"⟩,
         SLine.mapLine ⟨2, 401, 0, 4096, "/usr/lib/libc.so"⟩]
      = LoadOutcome.quarantined 3 READ_DUPLICATE_OBJECT_ERROR ∧
    kp_state_load_model ⟨1, fun _ => false, fun _ _ => false⟩
        [SLine.preloadHeader 1 500,
         SLine.exeLine ⟨1, 450, 300, 1, 0, 3, 120, "/usr/bin/firefox"⟩,
         SLine.exeLine ⟨1, 451, 200, 0, 0, 1, 50, "/usr/bin/editor"⟩]
      = LoadOutcome.quarantined 3 READ_DUPLICATE_INDEX_ERROR ∧
    kp_state_load_model ⟨1, fun _ => false, fun _ _ => false⟩
        [SLine.preloadHeader 1 500,
         SLine.exeLine ⟨1, 450, 300, 1, 0, 3, 120, "/usr/bin/firefox"⟩,
         SLine.exeLine ⟨2, 451, 200, 0, 0, 1, 50, "/usr/bin/firefox"⟩]
      = LoadOutcome.quarantined 3 READ_DUPLICATE_OBJECT_ERROR := by
  refine ⟨?_, ?_, ?_, ?_⟩
  · exact load_duplicate_records_fail.2.2.2.2 ⟨1, fun _ => false, fun _ _ => false⟩
      [SLine.preloadHeader 1 500, SLine.mapLine ⟨1, 400, 0, 4096, "/usr/lib/libc.so"⟩]
      ⟨2, ⟨[(1, ⟨1, 400, 0, 4096, "/usr/lib/libc.so"⟩)], [],
        [⟨1, 400, 0, 4096, "/usr/lib/libc.so"⟩], [], [], [], [], [], none, 0, 500⟩⟩
      (SLine.mapLine ⟨1, 401, 0, 8192, "/usr/lib/libm.so"⟩) [] 3 READ_DUPLICATE_INDEX_ERROR
      rfl
      (load_duplicate_records_fail.1 ⟨1, fun _ => false, fun _ _ => false⟩ _ _
        (by decide) rfl)
  · exact load_duplicate_records_fail.2.2.2.2 ⟨1, fun _ => false, fun _ _ => false⟩
      [SLine.preloadHeader 1 500, SLine.mapLine ⟨1, 400, 0, 4096, "/usr/lib/libc.so"⟩]
      ⟨2, ⟨[(1, ⟨1, 400, 0, 4096, "/usr/lib/libc.so"⟩)], [],
        [⟨1, 400, 0, 4096, "/usr/lib/libc.so"⟩], [], [], [], [], [], none, 0, 500⟩⟩
      (SLine.mapLine ⟨2, 401, 0, 4096, "/usr/lib/libc.so"⟩) [] 3 READ_DUPLICATE_OBJECT_ERROR
      rfl
      (load_duplicate_records_fail.2.1 ⟨1, fun _ => false, fun _ _ => false⟩ _ _
        (by decide) rfl rfl)
  · exact load_duplicate_records_fail.2.2.2.2 ⟨1, fun _ => false, fun _ _ => false⟩
      [SLine.preloadHeader 1 500,
       SLine.exeLine ⟨1, 450, 300, 1, 0, 3, 120, "/usr/bin/firefox"⟩]
      ⟨2, ⟨[], [(1, ⟨1, 450, 300, 1, 0, 3, 120, "/usr/bin/firefox"⟩)], [],
        [⟨1, 450, 300, 1, 0, 3, 120, "/usr/bin/firefox"⟩], [], [], [], [],
        some ⟨1, 450, 300, 1, 0, 3, 120, "/usr/bin/firefox"⟩, 0, 500⟩⟩
      (SLine.exeLine ⟨1, 451, 200, 0, 0, 1, 50, "/usr/bin/editor"⟩) [] 3
      READ_DUPLICATE_INDEX_ERROR
      rfl
      (load_duplicate_records_fail.2.2.1 ⟨1, fun _ => false, fun _ _ => false⟩ _ _
        (by decide) rfl)
  · exact load_duplicate_records_fail.2.2.2.2 ⟨1, fun _ => false, fun _ _ => false⟩
      [SLine.preloadHeader 1 500,
       SLine.exeLine ⟨1, 450, 300, 1, 0, 3, 120, "/usr/bin/firefox"⟩]
      ⟨2, ⟨[], [(1, ⟨1, 450, 300, 1, 0, 3, 120, "/usr/bin/firefox"⟩)], [],
        [⟨1, 450, 300, 1, 0, 3, 120, "/usr/bin/firefox"⟩], [], [], [], [],
        some ⟨1, 450, 300, 1, 0, 3, 120, "/usr/bin/firefox"⟩, 0, 500⟩⟩
      (SLine.exeLine ⟨2, 451, 200, 0, 0, 1, 50, "/usr/bin/firefox"⟩) [] 3
      READ_DUPLICATE_OBJECT_ERROR
      rfl
      (load_duplicate_records_fail.2.2.2.1 ⟨1, fun _ => false, fun _ _ => false⟩ _ _
        (by decide) rfl rfl)

end Preheat
